import Mathlib

/-!
Verification development for the HRIndex grounded-citation pipeline and the
semantic concept-matching subsystem.

The definitions below are a shallow embedding of the TypeScript sources:

* the citation retrieval service in src/services/gemini.ts: the domain
  exclusion list, the index-bound extraction helper parseSearchResults, the
  three orchestrators getScopeAnalysis, getStatusAnalysis and getNexusAnalysis,
  and getSemanticRights;
* the trust-filter variant of the same service built on TRUSTED_DOMAINS,
  isTrustedSource and isLikelyAccessible;
* the semantic search effect of src/components/Constellation.tsx: the instant
  lookup table, the session cache, the debounced fallback call and the state
  updates performed when a fallback result arrives.

External generation calls are modelled by explicit outcome parameters of type
Except Unit: an error value stands for a rejected call or a thrown JSON parse
error, an ok value carries the decoded payload. All definitions are
executable, so theorems can be instantiated on concrete inputs by decide.
-/

/-! JavaScript string primitives used by the source. -/

/-- Lowercasing a string character by character, modelling
String.prototype.toLowerCase for the ASCII domain names used here. -/
def jsToLower (s : String) : String := String.mk (s.data.map Char.toLower)

/-- Substring test, modelling String.prototype.includes. -/
def jsIncludes (s pat : String) : Bool := decide (pat.data <:+: s.data)

/-- Whitespace predicate for the trim model. -/
def jsWhitespaceChar (c : Char) : Bool := c = ' ' || c = '\t' || c = '\n' || c = '\r'

/-- Leading and trailing whitespace removal, modelling String.prototype.trim. -/
def jsTrim (s : String) : String :=
  String.mk (((s.data.dropWhile jsWhitespaceChar).reverse.dropWhile jsWhitespaceChar).reverse)

/-- Model of the JavaScript test Number.isInteger on an exact rational. -/
def jsIsInteger (q : Rat) : Bool := q.den == 1

/-- Default operator on possibly missing strings: the JavaScript expression
value || fallback, where the empty string is falsy. -/
def jsOrDefault (v : Option String) (d : String) : String :=
  match v with
  | some s => if s = "" then d else s
  | none => d

/-! Data model, from types.ts. -/

/-- One entry of the static rights catalog. -/
structure HumanRight where
  id : String
  name : String
  category : String
  summary : Option String
deriving DecidableEq, Repr

/-- A candidate source observed in grounding metadata: a title and uri pair. -/
structure CandidateSource where
  title : String
  uri : String
deriving DecidableEq, Repr

/-- A citation record as produced by parseSearchResults. The optional date
field of the LegalInstrument interface is never produced by this code path
and is therefore omitted. -/
structure LegalInstrument where
  title : String
  uri : String
  reference : String
deriving DecidableEq, Repr

/-- Result type returned to the UI. The optional groundingUrls audit field is
not populated by the embedded code path. -/
structure DialogueResult where
  sources : List LegalInstrument
deriving DecidableEq, Repr

/-- One element of the sourceMatches array of the schema-constrained
extraction response. urlIndex is declared as NUMBER in the response schema,
so it is modelled as an exact rational. -/
structure SourceMatch where
  urlIndex : Rat
  title : String
  reference : String
deriving DecidableEq, Repr

/-- The decoded extraction response: an analysis string and the array of
source matches. A response that fails JSON decoding or lacks this shape is
modelled as an error outcome instead. -/
structure ParsedExtraction where
  analysis : String
  sourceMatches : List SourceMatch
deriving DecidableEq, Repr

/-- Source category passed through the pipeline. -/
inductive SourceType where
  | legal
  | ngo
  | academic
deriving DecidableEq, Repr

/-- Outcome of one external generation call: error models a rejected promise
or a thrown parse error, ok carries the decoded payload. -/
abbrev CallOutcome (α : Type) := Except Unit α

/-- Model of a try block with a catch handler, as used around every external
call in the service. -/
def tryCatchJs {α : Type} (body : Except Unit α) (handler : Unit → Except Unit α) :
    Except Unit α :=
  match body with
  | .ok a => .ok a
  | .error e => handler e

/-! Domain filtering of the current service, from src/services/gemini.ts. -/

/-- Exclusion pattern list EXCLUDED_DOMAINS of the current service. -/
def EXCLUDED_DOMAINS : List String :=
  ["wikipedia.org", "wiki", "jstor.org", "springer.com/article",
   "sciencedirect.com/science/article", "tandfonline.com/doi/abs",
   "wiley.com/doi/abs", "/abstract", "/citation"]

/-- Predicate shouldExclude of the current service: the lowercased url
contains one of the excluded patterns. -/
def shouldExclude (url : String) : Bool :=
  EXCLUDED_DOMAINS.any (fun pattern => jsIncludes (jsToLower url) pattern)

/-- Validation test applied to each source match: urlIndex must be an integer
with 0 <= urlIndex < len, where len is the filtered candidate count. -/
def validUrlIndex (len : Nat) (q : Rat) : Bool :=
  jsIsInteger q && decide (0 ≤ q) && decide (q < (len : Rat))

/-- Embedding of parseSearchResults from the current service. The first
component is the returned DialogueResult; the second counts the
schema-constrained generation calls issued, so the short-circuit on an empty
filtered list is observable. The prompt text built from query, searchContext
and the candidate list only feeds the external model and does not influence
the returned value, so its construction is elided. -/
def parseSearchResults (query searchContext : String)
    (groundingUrls : List CandidateSource) (sourceType : SourceType)
    (extraction : CallOutcome ParsedExtraction) : DialogueResult × Nat :=
  let filteredUrls := groundingUrls.filter (fun u => !shouldExclude u.uri)
  if filteredUrls.length = 0 then
    ({ sources := [] }, 0)
  else
    match extraction with
    | .error _ => ({ sources := [] }, 1)
    | .ok parsed =>
      let sources :=
        (parsed.sourceMatches.filter
            (fun m => validUrlIndex filteredUrls.length m.urlIndex)).map
          (fun m =>
            { title := m.title
              uri := (filteredUrls.getD m.urlIndex.num.toNat
                { title := "", uri := "" }).uri
              reference := m.reference })
      ({ sources := sources }, 1)

/-! Orchestrators of the current service. -/

/-- One grounding chunk of the search-augmented response; both the title and
the uri under the optional web field may be absent. -/
structure GroundingChunk where
  title : Option String
  uri : Option String
deriving DecidableEq, Repr

/-- The search-augmented retrieval response: generated text plus the optional
groundingChunks list of the grounding metadata. -/
structure RetrievalResponse where
  text : String
  groundingChunks : Option (List GroundingChunk)
deriving DecidableEq, Repr

/-- Candidate extraction performed by each orchestrator: map each chunk to a
title and uri pair, defaulting a missing or empty title to Source, then keep
only entries whose uri is present and nonempty; a missing chunk list yields
the empty candidate list. -/
def extractGroundingUrls (resp : RetrievalResponse) : List CandidateSource :=
  match resp.groundingChunks with
  | none => []
  | some chunks =>
    (chunks.map (fun c => (jsOrDefault c.title "Source", c.uri))).filterMap
      (fun p =>
        match p.2 with
        | some u => if u = "" then none else some { title := p.1, uri := u }
        | none => none)

/-- Jurisdiction scope selector. -/
inductive Scope where
  | International
  | Regional
  | National
deriving DecidableEq, Repr

/-- Display name of a scope value. -/
def Scope.label : Scope → String
  | .International => "International"
  | .Regional => "Regional"
  | .National => "National"

/-- Embedding of getScopeAnalysis: run the grounded retrieval, extract the
candidate list, and hand both to parseSearchResults with category legal; any
thrown error is caught and converted to an empty result. -/
def getScopeAnalysis (rightName : String) (scope : Scope) (subScope : String)
    (retrieval : CallOutcome RetrievalResponse)
    (extraction : CallOutcome ParsedExtraction) : Except Unit DialogueResult :=
  tryCatchJs
    (do
      let result ← retrieval
      let groundingUrls := extractGroundingUrls result
      pure (parseSearchResults
        (scope.label ++ " legal instruments for " ++ rightName ++
          (if subScope = "" then "" else " in " ++ subScope))
        result.text groundingUrls SourceType.legal extraction).1)
    (fun _ => .ok { sources := [] })

/-- Embedding of getStatusAnalysis, category ngo. -/
def getStatusAnalysis (rightName : String) (scope : Scope) (subScope : String)
    (retrieval : CallOutcome RetrievalResponse)
    (extraction : CallOutcome ParsedExtraction) : Except Unit DialogueResult :=
  tryCatchJs
    (do
      let result ← retrieval
      let groundingUrls := extractGroundingUrls result
      pure (parseSearchResults ("status reports on " ++ rightName)
        result.text groundingUrls SourceType.ngo extraction).1)
    (fun _ => .ok { sources := [] })

/-- Embedding of getNexusAnalysis, category academic. -/
def getNexusAnalysis (fromRight toRight : String) (scope : Scope) (subScope : String)
    (retrieval : CallOutcome RetrievalResponse)
    (extraction : CallOutcome ParsedExtraction) : Except Unit DialogueResult :=
  tryCatchJs
    (do
      let result ← retrieval
      let groundingUrls := extractGroundingUrls result
      pure (parseSearchResults
        ("nexus between " ++ fromRight ++ " and " ++ toRight)
        result.text groundingUrls SourceType.academic extraction).1)
    (fun _ => .ok { sources := [] })

/-! Semantic resolution of the current service. -/

/-- Untyped JSON value, the result of JSON.parse on the fallback response. -/
inductive Json where
  | null
  | bool (b : Bool)
  | num (q : Rat)
  | str (s : String)
  | arr (elems : List Json)
  | obj (fields : List (String × Json))

/-- Model of Array.isArray. -/
def Json.isArray : Json → Bool
  | .arr _ => true
  | _ => false

/-- Embedding of getSemanticRights from the current service: the body parses
the response text and returns the parsed value directly, with no array check;
the catch handler returns the empty array. The term and the rights catalog
only feed the prompt and do not influence the control flow. -/
def getSemanticRights (term : String) (rights : List HumanRight)
    (response : CallOutcome Json) : Except Unit Json :=
  tryCatchJs
    (do
      let parsed ← response
      pure parsed)
    (fun _ => .ok (Json.arr []))

/-! Trust filter variant of the service, from the TRUSTED_DOMAINS iteration
of src/services/gemini.ts. -/

/-- Allow-pattern lists per source category. -/
def TRUSTED_DOMAINS : SourceType → List String
  | .legal =>
    ["un.org", "ohchr.org", "unicef.org", "unesco.org", "who.int", "ilo.org",
     "treaties.un.org", "legal.un.org", "icj-cij.org"]
  | .ngo =>
    ["hrw.org", "amnesty.org", "icrc.org", "humanrightsfirst.org"]
  | .academic =>
    ["scholar.google.com", "researchgate.net", "academia.edu", "ssrn.com",
     "arxiv.org", ".edu", ".gov", "philpapers.org", "semanticscholar.org",
     "europepmc.org", "ncbi.nlm.nih.gov", "openaccess", "/pdf"]

/-- Embedding of isTrustedSource: the lowercased url contains at least one
lowercased allow pattern of the category. -/
def isTrustedSource (url : String) (ty : SourceType) : Bool :=
  (TRUSTED_DOMAINS ty).any (fun domain => jsIncludes (jsToLower url) (jsToLower domain))

/-- The goodPatterns list local to isLikelyAccessible. -/
def academicGoodPatterns : List String :=
  ["scholar.google.com", "researchgate.net", "academia.edu", "ssrn.com",
   "arxiv.org", ".edu", "/pdf", "openaccess", "philpapers.org",
   "semanticscholar.org", "europepmc.org", "ncbi.nlm.nih.gov/pmc"]

/-- The badPatterns list local to isLikelyAccessible. -/
def academicBadPatterns : List String :=
  ["jstor.org", "springer.com", "sciencedirect.com", "tandfonline.com",
   "wiley.com", "cambridge.org/core/journals", "oxfordjournals.org",
   "/abstract", "/citation"]

/-- Embedding of isLikelyAccessible: legal and ngo urls are always accepted;
an academic url is accepted when it contains a good pattern and no bad
pattern. -/
def isLikelyAccessible (url : String) (sourceType : SourceType) : Bool :=
  match sourceType with
  | .legal => true
  | .ngo => true
  | .academic =>
    let isGood := academicGoodPatterns.any (fun pattern => jsIncludes (jsToLower url) pattern)
    let isBad := academicBadPatterns.any (fun pattern => jsIncludes (jsToLower url) pattern)
    isGood && !isBad

/-- The combined acceptance test applied to each grounding url by the trust
filter variant of parseSearchResults: trusted and likely accessible. -/
def trustedSourceFilter (url : String) (sourceType : SourceType) : Bool :=
  isTrustedSource url sourceType && isLikelyAccessible url sourceType

/-- Acceptance in the sense of the specification: the url contains at least
one of the given patterns, compared case-insensitively. The pattern literals
of the source are already lowercase, so they appear unchanged here. -/
def matchesSomePattern (pats : List String) (url : String) : Prop :=
  ∃ p ∈ pats, p.data <:+: (jsToLower url).data

/-! Semantic concept matching, from src/components/Constellation.tsx. -/

/-- The session cache SEMANTIC_CACHE, modelled as an association list; the
most recent binding of a term shadows older ones, matching assignment to a
property of a plain object. -/
abbrev SemanticCache := List (String × List String)

/-- Property read SEMANTIC_CACHE term. An entry holding the empty list is
still a hit, since every array is truthy in JavaScript. -/
def cacheLookup (cache : SemanticCache) (term : String) : Option (List String) :=
  cache.lookup term

/-- Property assignment SEMANTIC_CACHE term = ids: the new binding replaces
any prior binding of the same term. -/
def cacheAssign (cache : SemanticCache) (term : String) (ids : List String) :
    SemanticCache :=
  (term, ids) :: cache

/-- The static INSTANT_MAP table of high-frequency terms. -/
def INSTANT_MAP : List (String × List String) :=
  [("food", ["25"]), ("eat", ["25"]), ("hungry", ["25"]), ("drink", ["25"]),
   ("water", ["25"]), ("house", ["25"]), ("home", ["12", "25"]),
   ("shelter", ["25"]), ("fair", ["7", "10"]), ("justice", ["8", "10"]),
   ("trial", ["10"]), ("court", ["8", "10"]), ("judge", ["10"]),
   ("police", ["9", "5"]), ("arrest", ["9"]), ("jail", ["9", "5"]),
   ("torture", ["5"]), ("pain", ["5"]), ("kill", ["3"]), ("murder", ["3"]),
   ("death", ["3"]), ("work", ["23"]), ("job", ["23"]),
   ("money", ["23", "25", "17"]), ("pay", ["23"]), ("school", ["26"]),
   ("learn", ["26"]), ("teacher", ["26"]), ("privacy", ["12"]),
   ("data", ["12"]), ("internet", ["12", "19"]), ("speak", ["19"]),
   ("voice", ["19", "21"]), ("vote", ["21"]), ("government", ["21"]),
   ("church", ["18"]), ("god", ["18"]), ("pray", ["18"]), ("travel", ["13"]),
   ("plane", ["13"]), ("border", ["13", "14"]), ("refugee", ["14"]),
   ("doctor", ["25"]), ("health", ["25"]), ("medicine", ["25"]),
   ("family", ["16"]), ("marry", ["16"]), ("child", ["16", "26"]),
   ("safety", ["3"]), ("equal", ["1", "7"]), ("racism", ["2"]),
   ("sexism", ["2"]), ("discrimination", ["2"])]

/-- Instant table read INSTANT_MAP term || []. -/
def instantLookup (term : String) : List String :=
  (INSTANT_MAP.lookup term).getD []

/-- Normalization applied to the raw search box content:
rightsSearchTerm.trim().toLowerCase(). -/
def normalizeTerm (raw : String) : String := jsToLower (jsTrim raw)

/-- Duplicate removal keeping the first occurrence, the order produced by
spreading a JavaScript Set built from a concatenation. -/
def jsSetDedupAux (seen : List String) : List String → List String
  | [] => []
  | x :: xs =>
    if x ∈ seen then jsSetDedupAux seen xs
    else x :: jsSetDedupAux (x :: seen) xs

/-- The expression spreading new Set of a ++ b into an array. -/
def jsSetUnion (a b : List String) : List String := jsSetDedupAux [] (a ++ b)

/-- Observable outcome of one run of the semantic search effect: either the
state update happens immediately with no fallback call scheduled, or instant
matches are shown and a debounced fallback call is scheduled for the
normalized term. -/
inductive SearchEffectResult where
  | immediate (newSemanticIds : List String)
  | scheduled (newSemanticIds : List String) (term : String)
deriving DecidableEq, Repr

/-- Embedding of the semantic retrieval effect of Constellation: normalize
the raw term; when its length exceeds one, look up the instant table, then
return the union with the session cache entry on a hit, or show the instant
matches and schedule the debounced fallback call on a miss; otherwise clear
the semantic ids with no lookup and no call. -/
def searchEffect (rightsSearchTerm : String) (cache : SemanticCache) :
    SearchEffectResult :=
  let term := normalizeTerm rightsSearchTerm
  if 1 < term.length then
    let instantMatches := instantLookup term
    match cacheLookup cache term with
    | some cached => .immediate (jsSetUnion instantMatches cached)
    | none => .scheduled instantMatches term
  else
    .immediate []

/-- The component state touched by a completed fallback call: the live
semanticIds value and the session cache. -/
structure SearchState where
  semanticIds : List String
  cache : SemanticCache
deriving DecidableEq, Repr

/-- State change performed when a fallback call for term resolves with ids:
the cache entry is assigned, and the live semanticIds become the set union of
the previous value with ids. -/
def applyFallbackResult (st : SearchState) (term : String) (ids : List String) :
    SearchState :=
  { cache := cacheAssign st.cache term ids
    semanticIds := jsSetUnion st.semanticIds ids }

/-! Helper lemmas. -/

/-- A failed extraction call always yields an empty source list from
parseSearchResults, whichever branch is taken. -/
theorem parseSearchResults_error_sources (query searchContext : String)
    (groundingUrls : List CandidateSource) (sourceType : SourceType) :
    (parseSearchResults query searchContext groundingUrls sourceType (.error ())).1
      = { sources := [] } := by
  simp only [parseSearchResults]
  split <;> rfl

/-- A valid urlIndex denotes a position inside the filtered candidate list. -/
theorem validUrlIndex_num_lt {len : Nat} {q : Rat}
    (h : validUrlIndex len q = true) : q.num.toNat < len := by
  simp only [validUrlIndex, jsIsInteger, Bool.and_eq_true, beq_iff_eq,
    decide_eq_true_eq] at h
  obtain ⟨⟨hden, hpos⟩, hlt⟩ := h
  have hq : (q.num : Rat) = q := (Rat.den_eq_one_iff q).mp hden
  have h1 : (q.num : Rat) < (len : Rat) := by rw [hq]; exact hlt
  have h2 : q.num < (len : Int) := by exact_mod_cast h1
  have h3 : (0 : Rat) ≤ (q.num : Rat) := by rw [hq]; exact hpos
  have h4 : (0 : Int) ≤ q.num := by exact_mod_cast h3
  omega

/-- Membership in the deduplication helper. -/
theorem mem_jsSetDedupAux (x : String) (l : List String) :
    ∀ seen, (x ∈ jsSetDedupAux seen l ↔ x ∈ l ∧ x ∉ seen) := by
  induction l with
  | nil => intro seen; simp [jsSetDedupAux]
  | cons y ys ih =>
    intro seen
    by_cases hy : y ∈ seen
    · rw [jsSetDedupAux, if_pos hy, ih seen]
      simp only [List.mem_cons]
      constructor
      · rintro ⟨hx, hns⟩
        exact ⟨Or.inr hx, hns⟩
      · rintro ⟨rfl | hx, hns⟩
        · exact absurd hy hns
        · exact ⟨hx, hns⟩
    · rw [jsSetDedupAux, if_neg hy]
      simp only [List.mem_cons, ih (y :: seen), List.mem_cons, not_or]
      constructor
      · rintro (rfl | ⟨hx, hxy, hns⟩)
        · exact ⟨Or.inl rfl, hy⟩
        · exact ⟨Or.inr hx, hns⟩
      · rintro ⟨rfl | hx, hns⟩
        · exact Or.inl rfl
        · by_cases hxy : x = y
          · exact Or.inl hxy
          · exact Or.inr ⟨hx, hxy, hns⟩

/-- Membership in the set union expression. -/
theorem mem_jsSetUnion (x : String) (a b : List String) :
    x ∈ jsSetUnion a b ↔ x ∈ a ∨ x ∈ b := by
  rw [jsSetUnion, mem_jsSetDedupAux]
  simp

/-- Any list whose patterns are already lowercase matches in the sense of the
specification exactly when the corresponding any expression of the source is
true, when the source lowercases each pattern before comparing. -/
theorem any_lowered_pattern_iff (pats : List String) (url : String)
    (hp : ∀ p ∈ pats, jsToLower p = p) :
    ((pats.any (fun d => jsIncludes (jsToLower url) (jsToLower d))) = true)
      ↔ matchesSomePattern pats url := by
  simp only [List.any_eq_true, jsIncludes, decide_eq_true_eq, matchesSomePattern]
  constructor
  · rintro ⟨d, hd, hinf⟩
    rw [hp d hd] at hinf
    exact ⟨d, hd, hinf⟩
  · rintro ⟨d, hd, hinf⟩
    refine ⟨d, hd, ?_⟩
    rw [hp d hd]
    exact hinf

/-- Same statement for the any expressions that compare the raw pattern
against the lowercased url. -/
theorem any_raw_pattern_iff (pats : List String) (url : String) :
    ((pats.any (fun p => jsIncludes (jsToLower url) p)) = true)
      ↔ matchesSomePattern pats url := by
  simp [List.any_eq_true, jsIncludes, matchesSomePattern]

/-- Every good pattern of isLikelyAccessible contains an academic trusted
domain as a substring, so a url matching a good pattern is automatically a
trusted academic source. -/
theorem academic_good_implies_trusted (url : String)
    (h : matchesSomePattern academicGoodPatterns url) :
    isTrustedSource url SourceType.academic = true := by
  obtain ⟨p, hp, hinf⟩ := h
  have mk : ∀ t : String, t ∈ TRUSTED_DOMAINS SourceType.academic →
      jsToLower t = t → t.data <:+: p.data →
      isTrustedSource url SourceType.academic = true := by
    intro t ht hlow hsub
    simp only [isTrustedSource, List.any_eq_true]
    refine ⟨t, ht, ?_⟩
    simp only [jsIncludes, hlow, decide_eq_true_eq]
    exact hsub.trans hinf
  fin_cases hp
  · exact mk "scholar.google.com" (by decide) (by decide) (by decide)
  · exact mk "researchgate.net" (by decide) (by decide) (by decide)
  · exact mk "academia.edu" (by decide) (by decide) (by decide)
  · exact mk "ssrn.com" (by decide) (by decide) (by decide)
  · exact mk "arxiv.org" (by decide) (by decide) (by decide)
  · exact mk ".edu" (by decide) (by decide) (by decide)
  · exact mk "/pdf" (by decide) (by decide) (by decide)
  · exact mk "openaccess" (by decide) (by decide) (by decide)
  · exact mk "philpapers.org" (by decide) (by decide) (by decide)
  · exact mk "semanticscholar.org" (by decide) (by decide) (by decide)
  · exact mk "europepmc.org" (by decide) (by decide) (by decide)
  · exact mk "ncbi.nlm.nih.gov" (by decide) (by decide) (by decide)

/-! Claim theorems. -/

/-- Claim C1: every citation produced by the extraction stage takes its uri
from a candidate that survived the domain filtering for that request; the
extraction response cannot introduce a uri of its own, since the response
format carries only an index into the filtered list. -/
theorem parseSearchResults_uri_from_filtered_candidates
    (query searchContext : String) (groundingUrls : List CandidateSource)
    (sourceType : SourceType) (extraction : CallOutcome ParsedExtraction)
    (c : LegalInstrument)
    (hc : c ∈ (parseSearchResults query searchContext groundingUrls sourceType
      extraction).1.sources) :
    ∃ u ∈ groundingUrls.filter (fun u => !shouldExclude u.uri), c.uri = u.uri := by
  simp only [parseSearchResults] at hc
  split at hc
  · simp at hc
  · cases extraction with
    | error e => simp at hc
    | ok parsed =>
      rw [List.mem_map] at hc
      obtain ⟨m, hm, hme⟩ := hc
      rw [List.mem_filter] at hm
      obtain ⟨hms, hvalid⟩ := hm
      have hlt : m.urlIndex.num.toNat
          < (groundingUrls.filter (fun u => !shouldExclude u.uri)).length :=
        validUrlIndex_num_lt hvalid
      refine ⟨(groundingUrls.filter (fun u => !shouldExclude u.uri)).getD
        m.urlIndex.num.toNat { title := "", uri := "" }, ?_, ?_⟩
      · rw [List.getD_eq_getElem _ _ hlt]
        exact List.getElem_mem hlt
      · rw [← hme]

/-- Witness for claim C1 at a concrete input: one trusted candidate, one
match referencing index zero. -/
theorem parseSearchResults_uri_witness :
    ∃ u ∈ ([{ title := "A", uri := "https://ohchr.org/x" }] :
        List CandidateSource).filter (fun u => !shouldExclude u.uri),
      ({ title := "T", uri := "https://ohchr.org/x", reference := "R" } :
        LegalInstrument).uri = u.uri :=
  parseSearchResults_uri_from_filtered_candidates "q" "ctx"
    [{ title := "A", uri := "https://ohchr.org/x" }] SourceType.legal
    (.ok { analysis := "a",
           sourceMatches := [{ urlIndex := 0, title := "T", reference := "R" }] })
    { title := "T", uri := "https://ohchr.org/x", reference := "R" }
    (by decide)

/-- Claim C3: a returned match survives exactly when its urlIndex is an
integer inside the bounds of the filtered candidate list, so every invalid
match is dropped without failing the whole result; in particular a match
with urlIndex five against a two-element candidate list is dropped and the
result is empty. -/
theorem parseSearchResults_invalid_index_dropped :
    (∀ (query searchContext : String) (groundingUrls : List CandidateSource)
       (sourceType : SourceType) (parsed : ParsedExtraction),
       groundingUrls.filter (fun u => !shouldExclude u.uri) ≠ [] →
       (parseSearchResults query searchContext groundingUrls sourceType
           (.ok parsed)).1.sources.length
         = (parsed.sourceMatches.filter (fun m =>
             decide (m.urlIndex.den = 1 ∧ 0 ≤ m.urlIndex ∧
               m.urlIndex < (((groundingUrls.filter
                 (fun u => !shouldExclude u.uri)).length : Nat) : Rat)))).length)
  ∧ parseSearchResults "query" "context"
      [{ title := "A", uri := "https://ohchr.org/a" },
       { title := "B", uri := "https://un.org/b" }] SourceType.legal
      (.ok { analysis := "x",
             sourceMatches := [{ urlIndex := 5, title := "X", reference := "Y" }] })
      = ({ sources := [] }, 1) := by
  constructor
  · intro query searchContext groundingUrls sourceType parsed hne
    have h0 : ¬ (groundingUrls.filter (fun u => !shouldExclude u.uri)).length = 0 := by
      simpa [List.length_eq_zero] using hne
    simp only [parseSearchResults, if_neg h0, List.length_map]
    apply congrArg List.length
    apply List.filter_congr
    intro m _
    by_cases h1 : m.urlIndex.den = 1 <;>
      by_cases h2 : (0 : Rat) ≤ m.urlIndex <;>
        by_cases h3 : m.urlIndex
            < (((groundingUrls.filter (fun u => !shouldExclude u.uri)).length : Nat) : Rat) <;>
          simp [validUrlIndex, jsIsInteger, h1, h2, h3]
  · decide

/-- Witness for claim C3: a mixed response with one valid and one invalid
match keeps exactly the valid one. -/
theorem parseSearchResults_invalid_index_witness :
    (parseSearchResults "q" "c"
        [{ title := "A", uri := "https://ohchr.org/a" }] SourceType.legal
        (.ok { analysis := "s",
               sourceMatches :=
                 [{ urlIndex := 0, title := "T", reference := "R" },
                  { urlIndex := 7, title := "U", reference := "S" }] })).1.sources.length
      = (([{ urlIndex := 0, title := "T", reference := "R" },
           { urlIndex := 7, title := "U", reference := "S" }] :
             List SourceMatch).filter (fun m =>
             decide (m.urlIndex.den = 1 ∧ 0 ≤ m.urlIndex ∧
               m.urlIndex < ((([{ title := "A", uri := "https://ohchr.org/a" }] :
                 List CandidateSource).filter
                   (fun u => !shouldExclude u.uri)).length : Rat)))).length :=
  parseSearchResults_invalid_index_dropped.1 "q" "c"
    [{ title := "A", uri := "https://ohchr.org/a" }] SourceType.legal
    { analysis := "s",
      sourceMatches :=
        [{ urlIndex := 0, title := "T", reference := "R" },
         { urlIndex := 7, title := "U", reference := "S" }] }
    (by decide)

/-- Claim C5: when no candidate survives the domain filtering, the extraction
stage returns the empty result at once and issues no schema-constrained
generation call (the call counter stays at zero). -/
theorem parseSearchResults_empty_candidates_skips_call
    (query searchContext : String) (groundingUrls : List CandidateSource)
    (sourceType : SourceType) (extraction : CallOutcome ParsedExtraction)
    (h : groundingUrls.filter (fun u => !shouldExclude u.uri) = []) :
    parseSearchResults query searchContext groundingUrls sourceType extraction
      = ({ sources := [] }, 0) := by
  simp [parseSearchResults, h]

/-- Witness for claim C5: a single candidate excluded by the wikipedia
pattern leaves an empty filtered list, so no call is issued. -/
theorem parseSearchResults_empty_candidates_witness :
    parseSearchResults "q" "ctx"
        [{ title := "W", uri := "https://en.wikipedia.org/wiki/X" }]
        SourceType.legal
        (.ok { analysis := "a", sourceMatches := [] })
      = ({ sources := [] }, 0) :=
  parseSearchResults_empty_candidates_skips_call "q" "ctx"
    [{ title := "W", uri := "https://en.wikipedia.org/wiki/X" }]
    SourceType.legal
    (.ok { analysis := "a", sourceMatches := [] })
    (by decide)

/-- Counterexample to claim C2: when the grounded retrieval call fails, the
legal orchestrator returns the empty result, which contains no citation at
all, not a category-specific fallback citation. -/
theorem getScopeAnalysis_failure_empty_counterexample :
    getScopeAnalysis "Privacy" Scope.International "" (.error ()) (.error ())
        = .ok { sources := [] }
  ∧ (DialogueResult.mk []).sources.length = 0 :=
  ⟨rfl, rfl⟩

/-- Amended claim C2: on any failure along the chain, each of the three
orchestrators returns the empty result with zero citations; no fallback
citation is produced. -/
theorem orchestrators_failure_return_empty
    (rightName fromRight toRight subScope : String) (scope : Scope)
    (extraction : CallOutcome ParsedExtraction) (resp : RetrievalResponse) :
    getScopeAnalysis rightName scope subScope (.error ()) extraction
        = .ok { sources := [] }
  ∧ getStatusAnalysis rightName scope subScope (.error ()) extraction
        = .ok { sources := [] }
  ∧ getNexusAnalysis fromRight toRight scope subScope (.error ()) extraction
        = .ok { sources := [] }
  ∧ getScopeAnalysis rightName scope subScope (.ok resp) (.error ())
        = .ok { sources := [] }
  ∧ getStatusAnalysis rightName scope subScope (.ok resp) (.error ())
        = .ok { sources := [] }
  ∧ getNexusAnalysis fromRight toRight scope subScope (.ok resp) (.error ())
        = .ok { sources := [] } := by
  refine ⟨rfl, rfl, rfl, ?_, ?_, ?_⟩ <;>
    simp [getScopeAnalysis, getStatusAnalysis, getNexusAnalysis, tryCatchJs,
      parseSearchResults_error_sources]

/-- Claim C8: the four operations exposed to the UI always resolve with a
value for every outcome of the external calls; every error path is caught and
converted to a fallback return value. -/
theorem ui_boundary_never_throws
    (rightName fromRight toRight subScope term : String) (scope : Scope)
    (retrieval : CallOutcome RetrievalResponse)
    (extraction : CallOutcome ParsedExtraction)
    (rights : List HumanRight) (response : CallOutcome Json) :
    (∃ r, getScopeAnalysis rightName scope subScope retrieval extraction = .ok r)
  ∧ (∃ r, getStatusAnalysis rightName scope subScope retrieval extraction = .ok r)
  ∧ (∃ r, getNexusAnalysis fromRight toRight scope subScope retrieval extraction = .ok r)
  ∧ (∃ v, getSemanticRights term rights response = .ok v) := by
  refine ⟨?_, ?_, ?_, ?_⟩
  · cases retrieval with
    | error e => exact ⟨_, rfl⟩
    | ok resp => exact ⟨_, rfl⟩
  · cases retrieval with
    | error e => exact ⟨_, rfl⟩
    | ok resp => exact ⟨_, rfl⟩
  · cases retrieval with
    | error e => exact ⟨_, rfl⟩
    | ok resp => exact ⟨_, rfl⟩
  · cases response with
    | error e => exact ⟨_, rfl⟩
    | ok v => exact ⟨_, rfl⟩

/-- Claim C6, evaluated at the failing input: a successfully parsed response
that is not an array, such as the object shape the configured response schema
itself enforces, is returned unchanged by getSemanticRights instead of being
replaced by the empty identifier set. -/
theorem getSemanticRights_nonArray_passthrough :
    getSemanticRights "food" []
        (.ok (Json.obj [("analysis", Json.str "ok"), ("sourceMatches", Json.arr [])]))
      = .ok (Json.obj [("analysis", Json.str "ok"), ("sourceMatches", Json.arr [])])
  ∧ Json.isArray
      (Json.obj [("analysis", Json.str "ok"), ("sourceMatches", Json.arr [])])
      = false
  ∧ getSemanticRights "food" [] (.error ()) = .ok (Json.arr []) :=
  ⟨rfl, rfl, rfl⟩

/-- Claim C4: the trust filter accepts a legal or ngo uri exactly when it
contains at least one allow pattern of that category, and accepts an academic
uri exactly when it contains at least one of the good patterns and none of
the deny patterns, so an academic deny pattern rejects a uri even when an
allow pattern is also present. -/
theorem trustedSourceFilter_decision_rule (url : String) :
    (trustedSourceFilter url SourceType.legal = true
       ↔ matchesSomePattern (TRUSTED_DOMAINS SourceType.legal) url)
  ∧ (trustedSourceFilter url SourceType.ngo = true
       ↔ matchesSomePattern (TRUSTED_DOMAINS SourceType.ngo) url)
  ∧ (trustedSourceFilter url SourceType.academic = true
       ↔ (matchesSomePattern academicGoodPatterns url
            ∧ ¬ matchesSomePattern academicBadPatterns url)) := by
  have hleg : trustedSourceFilter url SourceType.legal
      = isTrustedSource url SourceType.legal := by
    simp [trustedSourceFilter, isLikelyAccessible]
  have hngo : trustedSourceFilter url SourceType.ngo
      = isTrustedSource url SourceType.ngo := by
    simp [trustedSourceFilter, isLikelyAccessible]
  have hsplit : trustedSourceFilter url SourceType.academic
      = (isTrustedSource url SourceType.academic
          && ((academicGoodPatterns.any (fun pattern => jsIncludes (jsToLower url) pattern))
              && !(academicBadPatterns.any (fun pattern => jsIncludes (jsToLower url) pattern)))) :=
    rfl
  refine ⟨?_, ?_, ?_⟩
  · rw [hleg]
    exact any_lowered_pattern_iff _ _ (by decide)
  · rw [hngo]
    exact any_lowered_pattern_iff _ _ (by decide)
  · rw [hsplit]
    constructor
    · intro hacc
      rw [Bool.and_eq_true, Bool.and_eq_true] at hacc
      obtain ⟨htr, hgood, hnb⟩ := hacc
      refine ⟨(any_raw_pattern_iff _ _).mp hgood, ?_⟩
      intro hbadProp
      have hb := (any_raw_pattern_iff academicBadPatterns url).mpr hbadProp
      rw [hb] at hnb
      simp at hnb
    · rintro ⟨hgood, hbad⟩
      have h1 := academic_good_implies_trusted url hgood
      have h2 := (any_raw_pattern_iff academicGoodPatterns url).mpr hgood
      have h3 : (academicBadPatterns.any
          (fun pattern => jsIncludes (jsToLower url) pattern)) = false := by
        cases hb : academicBadPatterns.any (fun pattern => jsIncludes (jsToLower url) pattern)
        · rfl
        · exact absurd ((any_raw_pattern_iff _ _).mp hb) hbad
      rw [h1, h2, h3]
      rfl

/-- Counterexample to claim C7: when a fallback result arrives for a term
that already has a cache entry, assignment replaces the entry instead of
taking the union, so an identifier from the prior entry can be lost. -/
theorem semanticCache_write_replaces :
    cacheLookup (applyFallbackResult
        { semanticIds := [], cache := [("food", ["25"])] } "food" ["22"]).cache "food"
      = some ["22"]
  ∧ ¬ ("25" ∈ (["22"] : List String)) :=
  ⟨by decide, by decide⟩

/-- Amended claim C7: an arriving fallback result is written to the session
cache by plain assignment, replacing any prior entry for that term; the union
semantics apply to the live semanticIds state, which keeps every previous
identifier and adds the arriving ones. -/
theorem applyFallbackResult_assigns_and_unions_live
    (st : SearchState) (term : String) (ids : List String) :
    cacheLookup (applyFallbackResult st term ids).cache term = some ids
  ∧ (∀ x ∈ st.semanticIds, x ∈ (applyFallbackResult st term ids).semanticIds)
  ∧ (∀ x ∈ ids, x ∈ (applyFallbackResult st term ids).semanticIds) := by
  refine ⟨?_, ?_, ?_⟩
  · simp [applyFallbackResult, cacheAssign, cacheLookup, List.lookup]
  · intro x hx
    show x ∈ jsSetUnion st.semanticIds ids
    rw [mem_jsSetUnion]
    exact Or.inl hx
  · intro x hx
    show x ∈ jsSetUnion st.semanticIds ids
    rw [mem_jsSetUnion]
    exact Or.inr hx

/-- Witness for the amended claim C7 at a concrete state. -/
theorem applyFallbackResult_assigns_witness :
    cacheLookup (applyFallbackResult { semanticIds := ["1"], cache := [] }
        "food" ["22"]).cache "food" = some ["22"] :=
  (applyFallbackResult_assigns_and_unions_live
    { semanticIds := ["1"], cache := [] } "food" ["22"]).1

/-- Claim C9: a raw search term whose normalized form has length at most one
makes the effect clear the semantic ids immediately, with no fallback call
scheduled, and the outcome does not depend on the cache, so no cache lookup
is performed. -/
theorem short_search_term_resolves_empty
    (rightsSearchTerm : String) (cache cache₂ : SemanticCache)
    (h : (normalizeTerm rightsSearchTerm).length ≤ 1) :
    searchEffect rightsSearchTerm cache = .immediate []
  ∧ searchEffect rightsSearchTerm cache = searchEffect rightsSearchTerm cache₂ := by
  have hn : ¬ 1 < (normalizeTerm rightsSearchTerm).length := by omega
  constructor <;> simp [searchEffect, hn]

/-- Witness for claim C9: a padded single letter resolves immediately even
with a populated cache available. -/
theorem short_search_term_witness :
    searchEffect " A " [("a", ["3"])] = .immediate [] :=
  (short_search_term_resolves_empty " A " [("a", ["3"])] [] (by decide)).1

/-- Claim C10: an empty fallback result is stored as the cache entry of the
term, so every later search normalizing to the same term is answered from the
cache with only instant-table matches and schedules no further fallback
call. -/
theorem empty_fallback_cached_prevents_retry
    (st : SearchState) (raw : String)
    (h : 1 < (normalizeTerm raw).length) :
    cacheLookup (applyFallbackResult st (normalizeTerm raw) []).cache (normalizeTerm raw)
        = some []
  ∧ (∀ raw₂ : String, normalizeTerm raw₂ = normalizeTerm raw →
       searchEffect raw₂ (applyFallbackResult st (normalizeTerm raw) []).cache
         = .immediate (jsSetUnion (instantLookup (normalizeTerm raw)) []))
  ∧ (∀ x ∈ jsSetUnion (instantLookup (normalizeTerm raw)) [],
       x ∈ instantLookup (normalizeTerm raw)) := by
  have hlook : cacheLookup (applyFallbackResult st (normalizeTerm raw) []).cache
      (normalizeTerm raw) = some [] := by
    simp [applyFallbackResult, cacheAssign, cacheLookup, List.lookup]
  refine ⟨hlook, ?_, ?_⟩
  · intro raw₂ h2
    simp only [searchEffect, h2, if_pos h]
    rw [hlook]
  · intro x hx
    rw [mem_jsSetUnion] at hx
    rcases hx with hx | hx
    · exact hx
    · simp at hx

/-- Witness for claim C10 at a concrete term with an empty prior state. -/
theorem empty_fallback_cached_witness :
    cacheLookup (applyFallbackResult { semanticIds := [], cache := [] }
        (normalizeTerm "zzz") []).cache (normalizeTerm "zzz") = some [] :=
  (empty_fallback_cached_prevents_retry { semanticIds := [], cache := [] } "zzz"
    (by decide)).1
